import Mathlib

/-!
Shallow embedding of the TradeSentient frontend core: the bounded message
window maintained by `useWebSocket` (`onmessage` handler), the stats
derivation in `App` (the `stats` useMemo), the subscription-replay effect,
the keepalive/reconnect timer lifecycle, and the teardown cleanup.
All numeric message fields are embedded as exact rationals.
-/

namespace TradeSentient

/-- A classified inbound message: a parsed JSON object with the fields the
application reads (`type`, `symbol`, `price`, `score`).  Fields a given
message kind does not carry are simply never read by the code. -/
structure Msg where
  type : String
  symbol : String
  price : ℚ
  score : ℚ
  deriving DecidableEq, Repr

/-- JS `arr.slice(-n)`: the suffix consisting of the last `n` elements
(the whole list when it is shorter than `n`). -/
def sliceLast {α : Type} (n : Nat) (l : List α) : List α :=
  l.drop (l.length - n)

/-- The append performed by `onmessage`:
`setMessages(prev => [...prev.slice(-500), message])`. -/
def windowAppend (prev : List Msg) (m : Msg) : List Msg :=
  sliceLast 500 prev ++ [m]

/-- The window obtained by feeding a whole arrival sequence of classified
messages through `windowAppend`, starting from the initial empty store. -/
def runAppends (evs : List Msg) : List Msg :=
  evs.foldl windowAppend []

/-- JS truthiness of a `number | null` value: `null`, `0` are falsy,
every other number is truthy. -/
def truthy : Option ℚ → Bool
  | none => false
  | some q => q != 0

/-- Embeds `messages.filter(m => m.type === 'market' && m.symbol === selectedSymbol)`. -/
def marketMsgs (messages : List Msg) (selectedSymbol : String) : List Msg :=
  messages.filter (fun m => m.type == "market" && m.symbol == selectedSymbol)

/-- Embeds `messages.filter(m => m.type === 'sentiment')`. -/
def sentimentMsgs (messages : List Msg) : List Msg :=
  messages.filter (fun m => m.type == "sentiment")

/-- Embeds `messages.filter(m => m.type === 'signal')`. -/
def signalMsgs (messages : List Msg) : List Msg :=
  messages.filter (fun m => m.type == "signal")

/-- Embeds `marketMsgs.length > 0 ? marketMsgs[marketMsgs.length - 1].price : null`. -/
def latestPrice (messages : List Msg) (selectedSymbol : String) : Option ℚ :=
  if (marketMsgs messages selectedSymbol).length > 0 then
    ((marketMsgs messages selectedSymbol)[(marketMsgs messages selectedSymbol).length - 1]?).map
      (·.price)
  else none

/-- Embeds `marketMsgs.length > 1 ? marketMsgs[marketMsgs.length - 2].price : null`. -/
def prevPrice (messages : List Msg) (selectedSymbol : String) : Option ℚ :=
  if (marketMsgs messages selectedSymbol).length > 1 then
    ((marketMsgs messages selectedSymbol)[(marketMsgs messages selectedSymbol).length - 2]?).map
      (·.price)
  else none

/-- Embeds `latestPrice && prevPrice ? ((latestPrice - prevPrice) / prevPrice * 100) : 0`. -/
def priceChange (messages : List Msg) (selectedSymbol : String) : ℚ :=
  if truthy (latestPrice messages selectedSymbol) && truthy (prevPrice messages selectedSymbol) then
    (((latestPrice messages selectedSymbol).getD 0 - (prevPrice messages selectedSymbol).getD 0) /
        (prevPrice messages selectedSymbol).getD 0) * 100
  else 0

/-- Embeds `sentimentMsgs.length > 0 ? sentimentMsgs.reduce((sum,m) => sum + m.score, 0) / sentimentMsgs.length : 0`. -/
def avgSentiment (messages : List Msg) : ℚ :=
  if (sentimentMsgs messages).length > 0 then
    (sentimentMsgs messages).foldl (fun sum m => sum + m.score) 0 / ((sentimentMsgs messages).length : ℚ)
  else 0

/-- The record returned by the `stats` useMemo in `App`. -/
structure DerivedStats where
  latestPrice : Option ℚ
  priceChange : ℚ
  avgSentiment : ℚ
  totalSignals : Nat
  totalDataPoints : Nat
  currency : String
  deriving DecidableEq, Repr

/-- The `stats` useMemo in `App`, as a function of the triple
(window, active symbol, currency). -/
def stats (messages : List Msg) (selectedSymbol : String) (currentCurrency : String) :
    DerivedStats :=
  { latestPrice := latestPrice messages selectedSymbol
    priceChange := priceChange messages selectedSymbol
    avgSentiment := avgSentiment messages
    totalSignals := (signalMsgs messages).length
    totalDataPoints := (marketMsgs messages selectedSymbol).length
    currency := currentCurrency }

/-! ### Inbound frame handling (`onmessage`) -/

/-- Outcome of receiving one raw text frame, classified the way the
`onmessage` handler observes it: the literal `"pong"`, data that
`JSON.parse` turns into an object, or data on which `JSON.parse` throws. -/
inductive Inbound where
  | pong
  | json (m : Msg)
  | malformed (raw : String)
  deriving DecidableEq, Repr

/-- The `onmessage` handler.  `Except.error` would model an exception
propagating to the caller; the handler's `try`/`catch` swallows the
`JSON.parse` failure, so every branch returns `Except.ok`. -/
def handleMessage (prev : List Msg) (f : Inbound) : Except String (List Msg) :=
  match f with
  | .pong => .ok prev
  | .json m => if m.type == "subscribed" then .ok prev else .ok (windowAppend prev m)
  | .malformed _ => .ok prev

/-- The effect of one inbound frame on the store (the handler never
returns an error, in which case the store would stay as it was). -/
def applyInbound (w : List Msg) (f : Inbound) : List Msg :=
  match handleMessage w f with
  | .ok w' => w'
  | .error _ => w

/-- The store after a sequence of inbound frames has been processed. -/
def runInbound (prev : List Msg) (fs : List Inbound) : List Msg :=
  fs.foldl applyInbound prev

/-! ### Subscription-replay effect (`App` effect + `useWebSocket.subscribe`) -/

/-- A frame sent client → server. -/
inductive Frame where
  | ping
  | subscribeAdd (symbol : String)
  deriving DecidableEq, Repr

/-- Wire encoding of a client frame:
`JSON.stringify({action: 'subscribe_add', symbol})` for subscriptions,
the literal `"ping"` for keepalive. -/
def encodeFrame : Frame → String
  | .ping => "ping"
  | .subscribeAdd symbol =>
      "\x7b\"action\":\"subscribe_add\",\"symbol\":\"" ++ symbol ++ "\"\x7d"

/-- State seen by the subscription effect: the `isConnected` flag, the
`selectedSymbol` state variable, and the frames sent so far. -/
structure SubSt where
  isConnected : Bool
  selectedSymbol : String
  sent : List Frame
  deriving DecidableEq, Repr

/-- External events driving the subscription effect: the socket closing,
the socket (re)opening, and the user changing the selected symbol. -/
inductive SubEv where
  | closed
  | opened
  | setSymbol (s : String)
  deriving DecidableEq, Repr

/-- One step of the subscription machinery.  The effect
`if (isConnected && selectedSymbol) subscribe(selectedSymbol)` re-runs
whenever `isConnected` or `selectedSymbol` changes, and `subscribe` itself
only sends while the socket is open, so a send happens exactly when the
connection is up and the (current, re-read) symbol is non-empty. -/
def substep (st : SubSt) (e : SubEv) : SubSt :=
  match e with
  | .closed => { st with isConnected := false }
  | .opened =>
      if st.selectedSymbol != "" then
        { st with isConnected := true, sent := st.sent ++ [Frame.subscribeAdd st.selectedSymbol] }
      else
        { st with isConnected := true }
  | .setSymbol x =>
      if st.isConnected && x != "" then
        { st with selectedSymbol := x, sent := st.sent ++ [Frame.subscribeAdd x] }
      else
        { st with selectedSymbol := x }

/-- Run of the subscription machinery over an event sequence. -/
def subrun (st : SubSt) (evs : List SubEv) : SubSt :=
  evs.foldl substep st

/-! ### `connect` and the socket handle (`useWebSocket.connect`) -/

/-- Spec §3 connection state. -/
inductive ConnState where
  | disconnected
  | connecting
  | connected
  deriving DecidableEq, Repr

/-- Socket-handle bookkeeping around `connect`: how many constructed
sockets have not been closed, which one `ws.current` refers to, and a
counter to name the next one. -/
structure WSState where
  liveSockets : Nat
  wsCurrent : Option Nat
  nextId : Nat
  connState : ConnState
  deriving DecidableEq, Repr

/-- Embeds `useWebSocket.connect`: it runs `ws.current = new WebSocket(url)`
unconditionally — no check of the existing handle or of the connection
state — so it always constructs a fresh socket, overwrites `ws.current`,
and leaves the previous socket un-closed. -/
def connect (s : WSState) : WSState :=
  { liveSockets := s.liveSockets + 1
    wsCurrent := some s.nextId
    nextId := s.nextId + 1
    connState := ConnState.connecting }

/-! ### Keepalive timer (`onopen` / `onclose` handlers) -/

/-- State of the keepalive machinery: the `isConnected` flag, whether
`ws.current.readyState === WebSocket.OPEN`, the armed `setInterval`
period (none when cleared), the number of `"ping"` frames sent, and a
flag recording whether a ping was ever emitted while not connected. -/
structure KAState where
  connected : Bool
  socketOpen : Bool
  pingPeriod : Option Nat
  pingsSent : Nat
  badSend : Bool
  deriving DecidableEq, Repr

/-- Events of the keepalive machinery: `onopen` firing, the interval
timer firing, the socket leaving the OPEN readyState (close initiated,
`onclose` not yet delivered), and `onclose` firing. -/
inductive KAEv where
  | opened
  | timerFire
  | socketClosing
  | closeEvt
  deriving DecidableEq, Repr

/-- One step of the keepalive machinery.  `onopen` sets `isConnected` and
arms `setInterval(..., 25000)`; the timer callback sends `"ping"` only
after re-checking `readyState === OPEN` (a no-op otherwise); `onclose`
clears the flag and the interval. -/
def kstep (s : KAState) (e : KAEv) : KAState :=
  match e with
  | .opened => { s with connected := true, socketOpen := true, pingPeriod := some 25000 }
  | .timerFire =>
      if s.pingPeriod.isSome then
        if s.socketOpen then
          { s with pingsSent := s.pingsSent + 1, badSend := s.badSend || !s.connected }
        else s
      else s
  | .socketClosing => { s with socketOpen := false }
  | .closeEvt => { s with connected := false, socketOpen := false, pingPeriod := none }

/-- Initial keepalive state: disconnected, no socket, no timer. -/
def kinit : KAState :=
  { connected := false, socketOpen := false, pingPeriod := none, pingsSent := 0, badSend := false }

/-- Run of the keepalive machinery from the initial state. -/
def krun (evs : List KAEv) : KAState :=
  evs.foldl kstep kinit

/-! ### Teardown (`useWebSocket` cleanup effect) -/

/-- The primitive actions the cleanup function can perform. -/
inductive Action where
  | clearPingInterval
  | clearReconnectTimeout
  | closeSocket
  deriving DecidableEq, Repr

/-- The cleanup function body, in source order:
`clearInterval(pingInterval.current); clearTimeout(reconnectTimeout.current);
if (ws.current) ws.current.close();`. -/
def teardownActions : List Action :=
  [Action.clearPingInterval, Action.clearReconnectTimeout, Action.closeSocket]

/-- Timer/handler state relevant to teardown: whether the keepalive
interval and the reconnect timeout are armed, whether the socket is
live, and whether the socket's event handlers are still attached. -/
structure TDState where
  pingArmed : Bool
  reconnectArmed : Bool
  socketLive : Bool
  handlersAttached : Bool
  deriving DecidableEq, Repr

/-- Effect of running the cleanup: both timers armed at teardown time are
cleared and `close()` is initiated.  The cleanup never detaches the
socket's event handlers. -/
def teardown (s : TDState) : TDState :=
  { s with pingArmed := false, reconnectArmed := false, socketLive := false }

/-- The socket's close event being delivered after `close()`: if the
`onclose` handler is still attached it runs
`clearInterval(pingInterval.current); reconnectTimeout.current = setTimeout(connect, 3000)`,
re-arming the reconnect timer. -/
def oncloseFires (s : TDState) : TDState :=
  if s.handlersAttached then { s with pingArmed := false, reconnectArmed := true } else s

/-- Arithmetic mean of a list of rationals, 0 on the empty list: the spec's
description of the avgSentiment aggregate. -/
def arithMean (l : List ℚ) : ℚ :=
  if l.length = 0 then 0 else l.sum / (l.length : ℚ)

/-- The stats computation as an explicit state-passing read of the shared
window: it returns the derived record together with the window it leaves
behind.  The computation only reads `messages`, so the window comes back
unchanged. -/
def statsStep (w : List Msg) (sym cur : String) : DerivedStats × List Msg :=
  (stats w sym cur, w)

/-- Invariant of the keepalive machinery: no ping has been emitted while
disconnected, an open socket implies the Connected flag, a Connected state
has the interval armed at 25000 ms, and any armed interval has period
25000 ms. -/
def kinv (s : KAState) : Prop :=
  s.badSend = false ∧
  (s.socketOpen = true → s.connected = true) ∧
  (s.connected = true → s.pingPeriod = some 25000) ∧
  (∀ n, s.pingPeriod = some n → n = 25000)

/-! ### Window lemmas -/

theorem sliceLast_length {α : Type} (n : Nat) (l : List α) :
    (sliceLast n l).length = min l.length n := by
  unfold sliceLast
  rw [List.length_drop]
  omega

theorem drop_congr_idx {α : Type} (l : List α) (x y : Nat) (h : x = y) :
    List.drop x l = List.drop y l := by
  rw [h]

theorem sliceLast_sliceLast (l : List Msg) :
    sliceLast 500 (sliceLast 501 l) = sliceLast 500 l := by
  unfold sliceLast
  rw [List.length_drop, List.drop_drop]
  apply drop_congr_idx
  omega

theorem sliceLast_append_singleton (n : Nat) (hn : 1 ≤ n) (l : List Msg) (a : Msg) :
    sliceLast n (l ++ [a]) = sliceLast (n - 1) l ++ [a] := by
  unfold sliceLast
  have hlen : (l ++ [a]).length = l.length + 1 := by
    rw [List.length_append, List.length_singleton]
  rw [hlen]
  have hle : l.length + 1 - n ≤ l.length := by omega
  rw [List.drop_append_of_le_length hle]
  rw [drop_congr_idx l (l.length + 1 - n) (l.length - (n - 1)) (by omega)]

theorem windowAppend_sliceLast (evs : List Msg) (m : Msg) :
    windowAppend (sliceLast 501 evs) m = sliceLast 501 (evs ++ [m]) := by
  unfold windowAppend
  rw [sliceLast_sliceLast, sliceLast_append_singleton 501 (by omega)]

theorem runAppends_eq_sliceLast (evs : List Msg) :
    runAppends evs = sliceLast 501 evs := by
  induction evs using List.reverseRecOn with
  | nil => rfl
  | append_singleton l a ih =>
      have : runAppends (l ++ [a]) = windowAppend (runAppends l) a := by
        unfold runAppends
        rw [List.foldl_append]
        rfl
      rw [this, ih, windowAppend_sliceLast]

theorem sliceLast_suffix {α : Type} (n : Nat) (l : List α) :
    sliceLast n l <:+ l :=
  ⟨l.take (l.length - n), List.take_append_drop _ l⟩

/-- C1: the claimed capacity of 500 is off by one — `prev.slice(-500)`
keeps 500 elements and the spread appends one more, so after the 501st
append the window holds 501 elements, violating `len(window) ≤ 500`. -/
theorem c1_counterexample :
    ¬ ((runAppends (List.replicate 501 ⟨"market", "BTC", 1, 0⟩)).length ≤ 500) := by
  rw [runAppends_eq_sliceLast, sliceLast_length, List.length_replicate]
  omega

/-- C1 (amended): for every sequence of appends, after each append the
window length is at most 501 (namely `min total 501`), and the retained
elements are exactly the most recent at-most-501 appended events in
arrival order — the window is precisely the length-501 suffix of the
arrival sequence, giving strict FIFO eviction of the oldest first. -/
theorem c1_window_fifo_501 (evs : List Msg) :
    runAppends evs = sliceLast 501 evs ∧
    (runAppends evs).length = min evs.length 501 ∧
    (runAppends evs).length ≤ 501 ∧
    runAppends evs <:+ evs := by
  refine ⟨runAppends_eq_sliceLast evs, ?_, ?_, ?_⟩
  · rw [runAppends_eq_sliceLast, sliceLast_length]
  · rw [runAppends_eq_sliceLast, sliceLast_length]; omega
  · rw [runAppends_eq_sliceLast]; exact sliceLast_suffix 501 evs

/-! ### Stats lemmas -/

theorem latestPrice_eq_getLast (messages : List Msg) (sym : String) :
    latestPrice messages sym = ((marketMsgs messages sym).getLast?).map (·.price) := by
  unfold latestPrice
  by_cases h : (marketMsgs messages sym).length > 0
  · rw [if_pos h, List.getLast?_eq_getElem?]
  · rw [if_neg h]
    have hnil : marketMsgs messages sym = [] := List.eq_nil_of_length_eq_zero (by omega)
    rw [hnil]
    rfl

theorem prevPrice_eq_dropLast_getLast (messages : List Msg) (sym : String) :
    prevPrice messages sym = ((marketMsgs messages sym).dropLast.getLast?).map (·.price) := by
  unfold prevPrice
  by_cases h : (marketMsgs messages sym).length > 1
  · rw [if_pos h]
    have hb : (marketMsgs messages sym).dropLast.getLast? =
        (marketMsgs messages sym)[(marketMsgs messages sym).length - 2]? := by
      rw [List.getLast?_eq_getElem?, List.dropLast_eq_take]
      have h1 : ((marketMsgs messages sym).take ((marketMsgs messages sym).length - 1)).length =
          (marketMsgs messages sym).length - 1 := by
        rw [List.length_take]
        omega
      rw [h1, List.getElem?_take_of_lt (by omega)]
      congr 1
    rw [hb]
  · rw [if_neg h]
    have hnil : (marketMsgs messages sym).dropLast = [] := by
      rw [List.dropLast_eq_take]
      have : (marketMsgs messages sym).length - 1 = 0 := by omega
      rw [this, List.take_zero]
    rw [hnil]
    rfl

/-- C2 counterexample: window = [Market(BTC,100), Market(BTC,0)] with active
symbol "BTC" contains two matching Market events, yet the computed
priceChange is 0 and not the claimed formula value (0 - 100)/100 · 100 = -100:
the JS truthiness guard `latestPrice && prevPrice` short-circuits to 0 when
the latest price is the (falsy) number 0. -/
theorem c2_counterexample :
    (stats [⟨"market", "BTC", 100, 0⟩, ⟨"market", "BTC", 0, 0⟩] "BTC" "USD").priceChange = 0 ∧
    ((0 : ℚ) - 100) / 100 * 100 ≠ 0 := by
  constructor
  · norm_num [stats, priceChange, latestPrice, prevPrice, marketMsgs, List.filter, truthy]
  · norm_num

/-- C2 (amended): latestPrice and prevPrice select the prices of the two most
recent Market events matching the active symbol in arrival order; whenever
both selected prices are non-zero, priceChange is (latest − previous)/previous · 100,
and with fewer than two matching events it is 0.  (When either selected price
is the falsy number 0, the guard yields 0 instead of the formula — see the
counterexample.)  The worked examples hold: [Market(BTC,100), Market(BTC,110)]
gives priceChange 10 and a single Market(BTC,100) gives 0. -/
theorem c2_price_change (w : List Msg) (sym cur : String) :
    latestPrice w sym = ((marketMsgs w sym).getLast?).map (·.price) ∧
    prevPrice w sym = ((marketMsgs w sym).dropLast.getLast?).map (·.price) ∧
    (∀ l p : ℚ, latestPrice w sym = some l → prevPrice w sym = some p →
      l ≠ 0 → p ≠ 0 → (stats w sym cur).priceChange = (l - p) / p * 100) ∧
    ((marketMsgs w sym).length < 2 → (stats w sym cur).priceChange = 0) ∧
    (stats [⟨"market", "BTC", 100, 0⟩, ⟨"market", "BTC", 110, 0⟩] "BTC" "USD").priceChange = 10 ∧
    (stats [⟨"market", "BTC", 100, 0⟩] "BTC" "USD").priceChange = 0 := by
  refine ⟨latestPrice_eq_getLast w sym, prevPrice_eq_dropLast_getLast w sym, ?_, ?_, ?_, ?_⟩
  · intro l p hl hp hl0 hp0
    show priceChange w sym = (l - p) / p * 100
    unfold priceChange
    rw [hl, hp]
    simp only [truthy]
    rw [if_pos (by simp [bne_iff_ne, hl0, hp0])]
    simp [Option.getD_some]
  · intro h2
    show priceChange w sym = 0
    have hp : prevPrice w sym = none := by
      unfold prevPrice
      rw [if_neg (by omega)]
    unfold priceChange
    rw [hp]
    simp [truthy]
  · norm_num [stats, priceChange, latestPrice, prevPrice, marketMsgs, List.filter, truthy]
  · norm_num [stats, priceChange, latestPrice, prevPrice, marketMsgs, List.filter, truthy]

/-- C2 witness: the amended theorem applied at the spec's worked example
window [Market(BTC,100), Market(BTC,110)] with active symbol "BTC". -/
theorem c2_price_change_witness :
    (stats [⟨"market", "BTC", 100, 0⟩, ⟨"market", "BTC", 110, 0⟩] "BTC" "USD").priceChange =
      ((110 : ℚ) - 100) / 100 * 100 :=
  (c2_price_change [⟨"market", "BTC", 100, 0⟩, ⟨"market", "BTC", 110, 0⟩] "BTC" "USD").2.2.1
    110 100 (by norm_num [latestPrice, marketMsgs, List.filter])
    (by norm_num [prevPrice, marketMsgs, List.filter]) (by norm_num) (by norm_num)

theorem foldl_add_score (l : List Msg) (a : ℚ) :
    l.foldl (fun sum m => sum + m.score) a = a + (l.map (·.score)).sum := by
  induction l generalizing a with
  | nil => simp
  | cons x t ih =>
      rw [List.foldl_cons, ih, List.map_cons, List.sum_cons]
      ring

/-- C8: avgSentiment is the arithmetic mean of `score` over all Sentiment
events in the window regardless of the active symbol (and 0 when there are
none), and the worked example [Sentiment(0.5), Sentiment(-0.1)] yields 0.2. -/
theorem c8_avg_sentiment (w : List Msg) (sym sym2 cur cur2 : String) :
    (stats w sym cur).avgSentiment =
      arithMean ((w.filter (fun m => m.type == "sentiment")).map (·.score)) ∧
    (stats w sym cur).avgSentiment = (stats w sym2 cur2).avgSentiment ∧
    (stats [⟨"sentiment", "", 0, 1/2⟩, ⟨"sentiment", "", 0, -1/10⟩] "BTC" "USD").avgSentiment
      = 1/5 := by
  refine ⟨?_, rfl, ?_⟩
  · show avgSentiment w = _
    unfold avgSentiment arithMean sentimentMsgs
    rw [List.length_map, foldl_add_score]
    by_cases h : (w.filter (fun m => m.type == "sentiment")).length > 0
    · rw [if_pos h, if_neg (by omega)]
      ring
    · rw [if_neg h, if_pos (by omega)]
  · norm_num [stats, avgSentiment, sentimentMsgs, List.filter]

/-- C9: the stats derivation is a pure function of (window, symbol, currency):
it leaves the shared window unchanged, and computing it a second time on the
state left by the first computation yields an identical result in every
field. -/
theorem c9_stats_pure (w : List Msg) (sym cur : String) :
    (statsStep w sym cur).2 = w ∧
    (statsStep (statsStep w sym cur).2 sym cur).1.latestPrice = (statsStep w sym cur).1.latestPrice ∧
    (statsStep (statsStep w sym cur).2 sym cur).1.priceChange = (statsStep w sym cur).1.priceChange ∧
    (statsStep (statsStep w sym cur).2 sym cur).1.avgSentiment = (statsStep w sym cur).1.avgSentiment ∧
    (statsStep (statsStep w sym cur).2 sym cur).1.totalSignals = (statsStep w sym cur).1.totalSignals ∧
    (statsStep (statsStep w sym cur).2 sym cur).1.totalDataPoints = (statsStep w sym cur).1.totalDataPoints ∧
    (statsStep (statsStep w sym cur).2 sym cur).1.currency = (statsStep w sym cur).1.currency :=
  ⟨rfl, rfl, rfl, rfl, rfl, rfl, rfl⟩

/-- C10: the priceChange division is guarded by JS truthiness of both
selected prices: whenever either of the two selected matching prices is 0,
priceChange is 0 instead of the formula, and in general priceChange is
either 0 or the formula applied to two present, non-zero prices (so the
division's denominator is never 0). -/
theorem c10_division_guard (w : List Msg) (sym cur : String) :
    (∀ l p : ℚ, latestPrice w sym = some l → prevPrice w sym = some p →
      (l = 0 ∨ p = 0) → (stats w sym cur).priceChange = 0) ∧
    ((stats w sym cur).priceChange = 0 ∨
      ∃ l p : ℚ, latestPrice w sym = some l ∧ prevPrice w sym = some p ∧
        l ≠ 0 ∧ p ≠ 0 ∧ (stats w sym cur).priceChange = (l - p) / p * 100) := by
  constructor
  · intro l p hl hp h0
    show priceChange w sym = 0
    unfold priceChange
    rw [hl, hp]
    simp only [truthy]
    rw [if_neg]
    rcases h0 with h0 | h0 <;> simp [h0]
  · by_cases hc : (truthy (latestPrice w sym) && truthy (prevPrice w sym)) = true
    · right
      have hl : ∃ l : ℚ, latestPrice w sym = some l ∧ l ≠ 0 := by
        rcases Bool.and_eq_true_iff.mp hc with ⟨h1, _⟩
        cases hx : latestPrice w sym with
        | none => rw [hx] at h1; simp [truthy] at h1
        | some q =>
            rw [hx] at h1
            simp only [truthy, bne_iff_ne] at h1
            exact ⟨q, rfl, h1⟩
      have hp : ∃ p : ℚ, prevPrice w sym = some p ∧ p ≠ 0 := by
        rcases Bool.and_eq_true_iff.mp hc with ⟨_, h2⟩
        cases hx : prevPrice w sym with
        | none => rw [hx] at h2; simp [truthy] at h2
        | some q =>
            rw [hx] at h2
            simp only [truthy, bne_iff_ne] at h2
            exact ⟨q, rfl, h2⟩
      obtain ⟨l, hl1, hl0⟩ := hl
      obtain ⟨p, hp1, hp0⟩ := hp
      refine ⟨l, p, hl1, hp1, hl0, hp0, ?_⟩
      show priceChange w sym = _
      unfold priceChange
      rw [if_pos hc, hl1, hp1]
      simp [Option.getD_some]
    · left
      show priceChange w sym = 0
      unfold priceChange
      rw [if_neg hc]

/-- C10 witness: the guard theorem applied at the concrete window
[Market(BTC,100), Market(BTC,0)] with active symbol "BTC", where the latest
matching price is 0. -/
theorem c10_division_guard_witness :
    (stats [⟨"market", "BTC", 100, 0⟩, ⟨"market", "BTC", 0, 0⟩] "BTC" "USD").priceChange = 0 :=
  (c10_division_guard [⟨"market", "BTC", 100, 0⟩, ⟨"market", "BTC", 0, 0⟩] "BTC" "USD").1
    0 100 (by norm_num [latestPrice, marketMsgs, List.filter])
    (by norm_num [prevPrice, marketMsgs, List.filter]) (Or.inl rfl)

/-! ### Subscription-replay lemmas (C3) -/

theorem substep_closed (st : SubSt) :
    substep st SubEv.closed = { st with isConnected := false } := rfl

theorem substep_opened (st : SubSt) :
    substep st SubEv.opened =
      if st.selectedSymbol != "" then
        { st with isConnected := true
                  sent := st.sent ++ [Frame.subscribeAdd st.selectedSymbol] }
      else { st with isConnected := true } := rfl

theorem subrun_offline (evs : List SubEv) :
    ∀ st : SubSt, st.isConnected = false → (∀ e ∈ evs, e ≠ SubEv.opened) →
      (subrun st evs).sent = st.sent ∧ (subrun st evs).isConnected = false := by
  induction evs with
  | nil => intro st h _; exact ⟨rfl, h⟩
  | cons e t ih =>
      intro st h hne
      have hcons : subrun st (e :: t) = subrun (substep st e) t := rfl
      have he : e ≠ SubEv.opened := hne e (List.mem_cons_self e t)
      have ht : ∀ x ∈ t, x ≠ SubEv.opened := fun x hx => hne x (List.mem_cons_of_mem e hx)
      cases e with
      | closed =>
          rw [hcons]
          exact ih (substep st SubEv.closed) rfl ht
      | opened => exact absurd rfl he
      | setSymbol x =>
          rw [hcons]
          have hstep : (substep st (SubEv.setSymbol x)).sent = st.sent ∧
              (substep st (SubEv.setSymbol x)).isConnected = false := by
            unfold substep
            rw [h]
            simp
          have := ih (substep st (SubEv.setSymbol x)) hstep.2 ht
          rw [this.1, hstep.1]
          exact ⟨rfl, this.2⟩

/-- C3: in every trace in which the active symbol is "ETH", the connection
closes, the symbol is changed (to "SOL" among possibly other offline
changes) while not connected, and the connection then re-opens: no
subscription frame is sent during the offline segment, and the single frame
sent on reconnection is `subscribe_add` of the current symbol "SOL" — which
encodes to exactly `{"action":"subscribe_add","symbol":"SOL"}` — never the
stale "ETH". -/
theorem c3_subscription_replay (st : SubSt) (mid : List SubEv)
    (hsym : st.selectedSymbol = "ETH")
    (hmid : ∀ e ∈ mid, e ≠ SubEv.opened)
    (hsol : (subrun (substep st SubEv.closed) mid).selectedSymbol = "SOL") :
    (subrun (substep st SubEv.closed) mid).sent = st.sent ∧
    (subrun st (SubEv.closed :: (mid ++ [SubEv.opened]))).sent =
      st.sent ++ [Frame.subscribeAdd "SOL"] ∧
    encodeFrame (Frame.subscribeAdd "SOL") =
      "\x7b\"action\":\"subscribe_add\",\"symbol\":\"SOL\"\x7d" := by
  have hoff := subrun_offline mid (substep st SubEv.closed) rfl hmid
  refine ⟨hoff.1, ?_, rfl⟩
  have hsplit : subrun st (SubEv.closed :: (mid ++ [SubEv.opened])) =
      substep (subrun (substep st SubEv.closed) mid) SubEv.opened := by
    unfold subrun
    rw [List.foldl_cons, List.foldl_append]
    rfl
  rw [hsplit, substep_opened]
  rw [if_pos (by rw [hsol]; decide)]
  show (subrun (substep st SubEv.closed) mid).sent ++
      [Frame.subscribeAdd (subrun (substep st SubEv.closed) mid).selectedSymbol] =
    st.sent ++ [Frame.subscribeAdd "SOL"]
  rw [hsol, hoff.1, substep_closed]

/-- C3 witness: the replay theorem at the concrete trace — connected with
symbol "ETH", a close, a symbol change to "SOL" while offline, then a
reconnect — yields exactly one sent frame, `subscribe_add "SOL"`. -/
theorem c3_subscription_replay_witness :
    (subrun ⟨true, "ETH", []⟩
        (SubEv.closed :: ([SubEv.setSymbol "SOL"] ++ [SubEv.opened]))).sent =
      [] ++ [Frame.subscribeAdd "SOL"] :=
  (c3_subscription_replay ⟨true, "ETH", []⟩ [SubEv.setSymbol "SOL"] rfl
    (by decide) (by decide)).2.1

/-! ### `connect` theorems (C4) -/

/-- C4 counterexample: from a Connected state holding one live socket, a
further call to `connect` constructs a second WebSocket, so the number of
live socket handles afterwards is 2, not the unchanged 1 the claim
requires. -/
theorem c4_counterexample :
    ¬ ((connect ⟨1, some 0, 1, ConnState.connected⟩).liveSockets =
        (⟨1, some 0, 1, ConnState.connected⟩ : WSState).liveSockets) := by
  decide

/-- C4 (amended): `connect` is not idempotent — it has no guard at all: in
every state, in particular while already Connecting or Connected, a call to
`connect` constructs a fresh socket (raising the live-socket count by one)
and overwrites `ws.current` with the new handle without closing the
previous socket. -/
theorem c4_connect_not_idempotent (s : WSState)
    (h : s.connState = ConnState.connecting ∨ s.connState = ConnState.connected) :
    (connect s).liveSockets = s.liveSockets + 1 ∧
    (connect s).wsCurrent = some s.nextId ∧
    (connect s).connState = ConnState.connecting :=
  ⟨rfl, rfl, rfl⟩

/-- C4 witness: the amended theorem at a concrete Connected state with one
live socket: after `connect` there are two. -/
theorem c4_connect_not_idempotent_witness :
    (connect ⟨1, some 0, 1, ConnState.connected⟩).liveSockets = 1 + 1 :=
  (c4_connect_not_idempotent ⟨1, some 0, 1, ConnState.connected⟩ (Or.inr rfl)).1

/-! ### Keepalive theorems (C5) -/

theorem kstep_opened (s : KAState) :
    kstep s KAEv.opened =
      { s with connected := true, socketOpen := true, pingPeriod := some 25000 } := rfl

theorem kstep_timerFire (s : KAState) :
    kstep s KAEv.timerFire =
      if s.pingPeriod.isSome then
        if s.socketOpen then
          { s with pingsSent := s.pingsSent + 1, badSend := s.badSend || !s.connected }
        else s
      else s := rfl

theorem kstep_socketClosing (s : KAState) :
    kstep s KAEv.socketClosing = { s with socketOpen := false } := rfl

theorem kstep_closeEvt (s : KAState) :
    kstep s KAEv.closeEvt =
      { s with connected := false, socketOpen := false, pingPeriod := none } := rfl

theorem kinv_init : kinv kinit := by
  refine ⟨rfl, ?_, ?_, ?_⟩
  · intro h
    simp [kinit] at h
  · intro h
    simp [kinit] at h
  · intro n hn
    simp [kinit] at hn

theorem kinv_step (s : KAState) (e : KAEv) (h : kinv s) : kinv (kstep s e) := by
  obtain ⟨hb, hoc, hcp, hp⟩ := h
  cases e with
  | opened =>
      rw [kstep_opened]
      exact ⟨hb, fun _ => rfl, fun _ => rfl, fun n hn => by injection hn with h; omega⟩
  | timerFire =>
      rw [kstep_timerFire]
      by_cases harm : s.pingPeriod.isSome = true
      · rw [if_pos harm]
        by_cases hop : s.socketOpen = true
        · rw [if_pos hop]
          refine ⟨?_, hoc, hcp, hp⟩
          show (s.badSend || !s.connected) = false
          rw [hb, hoc hop]
          rfl
        · rw [if_neg hop]
          exact ⟨hb, hoc, hcp, hp⟩
      · rw [if_neg harm]
        exact ⟨hb, hoc, hcp, hp⟩
  | socketClosing =>
      rw [kstep_socketClosing]
      refine ⟨hb, ?_, hcp, hp⟩
      intro hfalse
      simp at hfalse
  | closeEvt =>
      rw [kstep_closeEvt]
      refine ⟨hb, ?_, ?_, ?_⟩
      · intro hfalse
        simp at hfalse
      · intro hfalse
        simp at hfalse
      · intro n hn
        simp at hn

theorem kinv_foldl (evs : List KAEv) :
    ∀ s : KAState, kinv s → kinv (evs.foldl kstep s) := by
  induction evs with
  | nil => intro s h; exact h
  | cons e t ih => intro s h; exact ih (kstep s e) (kinv_step s e h)

/-- C5: in every reachable trace of the keepalive machinery no "ping" frame
is ever emitted while not Connected (the instrumentation flag stays false);
whenever Connected the interval is armed with period 25000 ms, and any
armed interval has period 25000 ms; and the timer callback's readyState
guard makes the fire a no-op — no send, no state change, no error — when
the socket is no longer open. -/
theorem c5_keepalive (evs : List KAEv) :
    (krun evs).badSend = false ∧
    ((krun evs).connected = true → (krun evs).pingPeriod = some 25000) ∧
    (∀ n, (krun evs).pingPeriod = some n → n = 25000) ∧
    (∀ s : KAState, s.socketOpen = false → kstep s KAEv.timerFire = s) := by
  have h := kinv_foldl evs kinit kinv_init
  refine ⟨h.1, h.2.2.1, h.2.2.2, ?_⟩
  intro s hs
  rw [kstep_timerFire]
  by_cases harm : s.pingPeriod.isSome = true
  · rw [if_pos harm, if_neg (by simp [hs])]
  · rw [if_neg harm]

/-- C5 witness: after the trace [onopen] the machinery is Connected and the
keepalive interval is armed at 25000 ms. -/
theorem c5_keepalive_witness :
    (krun [KAEv.opened]).pingPeriod = some 25000 :=
  (c5_keepalive [KAEv.opened]).2.1 rfl

/-! ### Inbound-frame theorems (C6) -/

theorem mem_windowAppend (w : List Msg) (m x : Msg) (hx : x ∈ windowAppend w m) :
    x ∈ w ∨ x = m := by
  unfold windowAppend at hx
  rcases List.mem_append.mp hx with h | h
  · exact Or.inl (List.drop_subset _ w h)
  · right
    simpa using h

theorem handleMessage_json (prev : List Msg) (m : Msg) :
    handleMessage prev (Inbound.json m) =
      if m.type == "subscribed" then Except.ok prev
      else Except.ok (windowAppend prev m) := rfl

theorem applyInbound_json (prev : List Msg) (m : Msg) :
    applyInbound prev (Inbound.json m) =
      if m.type == "subscribed" then prev else windowAppend prev m := by
  unfold applyInbound
  rw [handleMessage_json]
  by_cases hm : (m.type == "subscribed") = true
  · rw [if_pos hm, if_pos hm]
  · rw [if_neg hm, if_neg hm]

theorem mem_applyInbound (w : List Msg) (f : Inbound) (x : Msg)
    (hx : x ∈ applyInbound w f) :
    x ∈ w ∨ (f = Inbound.json x ∧ x.type ≠ "subscribed") := by
  cases f with
  | pong => exact Or.inl hx
  | malformed s => exact Or.inl hx
  | json m =>
      rw [applyInbound_json] at hx
      by_cases hm : (m.type == "subscribed") = true
      · rw [if_pos hm] at hx
        exact Or.inl hx
      · rw [if_neg hm] at hx
        rcases mem_windowAppend w m x hx with h | h
        · exact Or.inl h
        · right
          subst h
          exact ⟨rfl, by simpa using hm⟩

theorem mem_runInbound (fs : List Inbound) :
    ∀ (prev : List Msg) (x : Msg), x ∈ runInbound prev fs →
      x ∈ prev ∨ (Inbound.json x ∈ fs ∧ x.type ≠ "subscribed") := by
  induction fs with
  | nil => intro prev x hx; exact Or.inl hx
  | cons f t ih =>
      intro prev x hx
      have hx' : x ∈ runInbound (applyInbound prev f) t := hx
      rcases ih (applyInbound prev f) x hx' with h | ⟨h1, h2⟩
      · rcases mem_applyInbound prev f x h with h' | ⟨h1, h2⟩
        · exact Or.inl h'
        · exact Or.inr ⟨h1 ▸ List.mem_cons_self f t, h2⟩
      · exact Or.inr ⟨List.mem_cons_of_mem f h1, h2⟩

/-- C6: a literal "pong" frame, a frame parsing to a JSON object with
type "subscribed", and an unparseable frame each leave the message store
unchanged and raise no exception to the caller; moreover every element of
any later snapshot either was already in the store or entered it as a
parsed non-"subscribed" JSON frame, so none of those three frame kinds ever
appears in a subsequent snapshot. -/
theorem c6_control_frames_dropped (prev : List Msg) (f : Inbound)
    (h : f = Inbound.pong ∨ (∃ s, f = Inbound.malformed s) ∨
         (∃ m, f = Inbound.json m ∧ m.type = "subscribed")) :
    handleMessage prev f = Except.ok prev ∧
    (∀ fs : List Inbound, ∀ x : Msg, x ∈ runInbound prev fs →
        x ∈ prev ∨ (Inbound.json x ∈ fs ∧ x.type ≠ "subscribed")) := by
  constructor
  · rcases h with h | ⟨s, h⟩ | ⟨m, h, hm⟩ <;> subst h
    · rfl
    · rfl
    · rw [handleMessage_json, if_pos (by simp [hm])]
  · intro fs x hx
    exact mem_runInbound fs prev x hx

/-- C6 witness: the theorem at the concrete frame that parses to a
subscription ack `type = "subscribed"` on a store holding one market
message: the handler returns the store unchanged. -/
theorem c6_control_frames_dropped_witness :
    handleMessage [⟨"market", "BTC", 1, 0⟩]
        (Inbound.json ⟨"subscribed", "BTC", 0, 0⟩) =
      Except.ok [⟨"market", "BTC", 1, 0⟩] :=
  (c6_control_frames_dropped [⟨"market", "BTC", 1, 0⟩]
    (Inbound.json ⟨"subscribed", "BTC", 0, 0⟩)
    (Or.inr (Or.inr ⟨⟨"subscribed", "BTC", 0, 0⟩, rfl, rfl⟩))).1

/-! ### Teardown theorems (C7) -/

/-- C7 counterexample: the cleanup clears the keepalive interval first and
the reconnect timeout second — not the claimed reconnect-first order — and
because the close handler is left attached, the close event delivered
after teardown re-arms the reconnect timer, so a reconnect attempt does
fire after intentional teardown. -/
theorem c7_counterexample :
    teardownActions ≠
      [Action.clearReconnectTimeout, Action.clearPingInterval, Action.closeSocket] ∧
    (oncloseFires (teardown ⟨true, true, true, true⟩)).reconnectArmed = true := by
  constructor
  · decide
  · rfl

/-- C7 (amended): tearing down performs, in order: clear the keepalive
interval, then clear the reconnect timeout, then close the socket; every
timer pending at teardown time is cancelled.  The socket's event handlers
are not detached, however, so when the close event is delivered after
teardown the still-attached onclose handler arms a fresh reconnect
timer. -/
theorem c7_teardown (s : TDState) (h : s.handlersAttached = true) :
    teardownActions =
      [Action.clearPingInterval, Action.clearReconnectTimeout, Action.closeSocket] ∧
    (teardown s).pingArmed = false ∧
    (teardown s).reconnectArmed = false ∧
    (teardown s).handlersAttached = s.handlersAttached ∧
    (oncloseFires (teardown s)).reconnectArmed = true := by
  refine ⟨rfl, rfl, rfl, rfl, ?_⟩
  unfold oncloseFires teardown
  simp [h]

/-- C7 witness: the teardown theorem at the concrete fully-armed state. -/
theorem c7_teardown_witness :
    (oncloseFires (teardown ⟨true, true, true, true⟩)).reconnectArmed = true :=
  (c7_teardown ⟨true, true, true, true⟩ rfl).2.2.2.2

end TradeSentient
